import Mathlib

/-!
Verification of the MPR (multi-planar reconstruction) viewer core:
the crosshair/slice coordinator of `mpr_widget.py`, the wheel-scroll
index computation of `utils/ui_classes.py` / `utils/SliceViewLabel.py`,
and the slice-extraction pipeline of `utils/loader.py`.

The coordinator is modelled over `ℚ` (Python floats are binary
rationals, and every coordinator formula is field arithmetic plus
truncation), the loader over `ℝ` (it uses `sqrt`, `cos`, `sin`).
Python's `int(x)` truncates toward zero and is modelled by `pytrunc` /
`pytruncR`; Python's `%` on integers with a positive modulus agrees
with `Int.emod`.  A numpy call that raises (`min` of an empty array)
is modelled by `Option`, with `none` standing for the exception.
-/

/-! ## Crosshair coordinator state (`MPRWidget` in `mpr_widget.py`) -/

/-- Volume dimensions `(Nx, Ny, Nz)`: `self.dims = data.shape`,
axes ordered (X = sagittal, Y = coronal, Z = axial). -/
structure Dims3 where
  nx : ℕ
  ny : ℕ
  nz : ℕ
deriving DecidableEq

/-- Python `int(q)`: truncation toward zero. -/
def pytrunc (q : ℚ) : ℤ := if 0 ≤ q then ⌊q⌋ else ⌈q⌉

/-- Python `min(a, b)` (returns `a` on ties). -/
def pymin (a b : ℚ) : ℚ := if a ≤ b then a else b

/-- Python `max(a, b)` (returns `a` on ties). -/
def pymax (a b : ℚ) : ℚ := if b ≤ a then a else b

/-- `max(0.0, min(1.0, x))` from `set_slice_from_crosshair`. -/
def clamp01 (q : ℚ) : ℚ := pymax 0 (pymin 1 q)

/-- The mutable view state of `MPRWidget`: the normalized cursor
`norm_coords = {'S','C','A'}` and the slice-index dict `self.slices`. -/
structure MPRState where
  S : ℚ
  C : ℚ
  A : ℚ
  axial : ℤ
  coronal : ℤ
  sagittal : ℤ
  oblique : ℤ
deriving DecidableEq

/-- `MPRWidget.reset_crosshair_and_slices` (`mpr_widget.py` 247-254):
cursor to the center, slices to the middle (`//` is floor division). -/
def reset_crosshair_and_slices (d : Dims3) : MPRState :=
  { S := 1/2, C := 1/2, A := 1/2
  , axial := (d.nz / 2 : ℕ)
  , coronal := (d.ny / 2 : ℕ)
  , sagittal := (d.nx / 2 : ℕ)
  , oblique := (d.nz / 2 : ℕ) }

/-- `MPRWidget.set_slice_from_crosshair` (`mpr_widget.py` 258-282).
The guard `if not file_loaded or dims is None: return` is outside the
model: the state is only defined once a volume is loaded.  The final
`update_all_views()` is a pure repaint and does not touch this state. -/
def set_slice_from_crosshair (d : Dims3) (source_view : String)
    (norm_x norm_y : ℚ) (st : MPRState) : MPRState :=
  let ux := clamp01 norm_x
  let uy := clamp01 norm_y
  if source_view = "axial" then
    { st with S := ux, C := uy
            , coronal := pytrunc (uy * ((d.ny : ℚ) - 1))
            , sagittal := pytrunc (ux * ((d.nx : ℚ) - 1)) }
  else if source_view = "coronal" then
    { st with S := ux, A := uy
            , axial := pytrunc ((1 - uy) * ((d.nz : ℚ) - 1))
            , sagittal := pytrunc (ux * ((d.nx : ℚ) - 1)) }
  else if source_view = "sagittal" then
    { st with C := ux, A := uy
            , axial := pytrunc ((1 - uy) * ((d.nz : ℚ) - 1))
            , coronal := pytrunc (ux * ((d.ny : ℚ) - 1)) }
  else st

/-- `MPRWidget.set_slice_from_scroll` (`mpr_widget.py` 284-308).
`self.slices[view_type] = new_slice_index` runs for any key; an
unknown key only adds an unused dict entry, so the modelled state is
unchanged in that case.  The oblique branch returns before the
normalized-coordinate update. -/
def set_slice_from_scroll (d : Dims3) (view_type : String)
    (new_slice_index : ℤ) (st : MPRState) : MPRState :=
  if view_type = "oblique" then
    { st with oblique := new_slice_index }
  else if view_type = "axial" then
    if 1 < d.nz then
      { st with axial := new_slice_index
              , A := 1 - (new_slice_index : ℚ) / ((d.nz : ℚ) - 1) }
    else
      { st with axial := new_slice_index }
  else if view_type = "coronal" then
    if 1 < d.ny then
      { st with coronal := new_slice_index
              , C := (new_slice_index : ℚ) / ((d.ny : ℚ) - 1) }
    else
      { st with coronal := new_slice_index }
  else if view_type = "sagittal" then
    if 1 < d.nx then
      { st with sagittal := new_slice_index
              , S := (new_slice_index : ℚ) / ((d.nx : ℚ) - 1) }
    else
      { st with sagittal := new_slice_index }
  else st

/-- `SliceViewLabel.wheelEvent` slice computation (`utils/ui_classes.py`
226-254, identically `utils/SliceViewLabel.py` 119-145): map the view
to its axis length and wrap with Python `%` (= `Int.emod` for a
positive modulus); an unrecognized view returns without scrolling. -/
def wheelNextSlice (d : Dims3) (view_type : String)
    (current_slice direction : ℤ) : Option ℤ :=
  if view_type = "axial" ∨ view_type = "oblique" then
    some ((current_slice + direction) % (d.nz : ℤ))
  else if view_type = "coronal" then
    some ((current_slice + direction) % (d.ny : ℤ))
  else if view_type = "sagittal" then
    some ((current_slice + direction) % (d.nx : ℤ))
  else none

/-- A UI event driving the coordinator: a crosshair click in one view
(Transition A) or a scroll to a given slice index (Transition B). -/
inductive UiEvent where
  | click (source_view : String) (norm_x norm_y : ℚ)
  | scroll (view_type : String) (idx : ℤ)
deriving DecidableEq

/-- Validity of an event for claim C1: clicks carry arbitrary
coordinates (and any source view); scroll indices are in range for
their axis (the axis mapping of `wheelEvent`). -/
def validEvent (d : Dims3) : UiEvent → Bool
  | .click _ _ _ => true
  | .scroll v i =>
    if v = "axial" then decide (0 ≤ i ∧ i < (d.nz : ℤ))
    else if v = "coronal" then decide (0 ≤ i ∧ i < (d.ny : ℤ))
    else if v = "sagittal" then decide (0 ≤ i ∧ i < (d.nx : ℤ))
    else if v = "oblique" then decide (0 ≤ i ∧ i < (d.nz : ℤ))
    else false

/-- One coordinator step. -/
def uiStep (d : Dims3) (e : UiEvent) (st : MPRState) : MPRState :=
  match e with
  | .click v x y => set_slice_from_crosshair d v x y st
  | .scroll v i => set_slice_from_scroll d v i st

/-- Run a sequence of events from the reset state. -/
def runEvents (d : Dims3) (es : List UiEvent) : MPRState :=
  es.foldl (fun st e => uiStep d e st) (reset_crosshair_and_slices d)

/-- The round-trip invariant of spec section 8: every orthogonal slice
index is within 1 of the rounded formula on the normalized cursor. -/
def consistent (d : Dims3) (st : MPRState) : Prop :=
  |st.axial - round ((1 - st.A) * ((d.nz : ℚ) - 1))| ≤ 1 ∧
  |st.coronal - round (st.C * ((d.ny : ℚ) - 1))| ≤ 1 ∧
  |st.sagittal - round (st.S * ((d.nx : ℚ) - 1))| ≤ 1

instance (d : Dims3) (st : MPRState) : Decidable (consistent d st) := by
  unfold consistent; infer_instance

/-! ## Helper lemmas -/

theorem pytrunc_bounds (q : ℚ) : ⌊q⌋ ≤ pytrunc q ∧ pytrunc q ≤ ⌊q⌋ + 1 := by
  unfold pytrunc
  split
  · exact ⟨le_refl _, by omega⟩
  · exact ⟨Int.floor_le_ceil q, Int.ceil_le_floor_add_one q⟩

theorem round_bounds (q : ℚ) : ⌊q⌋ ≤ round q ∧ round q ≤ ⌊q⌋ + 1 := by
  rw [round_eq]
  constructor
  · exact Int.floor_mono (by linarith)
  · have : ⌊q + 1/2⌋ ≤ ⌊q + 1⌋ := Int.floor_mono (by linarith)
    have h1 : (⌊q + (1 : ℤ)⌋ : ℤ) = ⌊q⌋ + 1 := Int.floor_add_int q 1
    push_cast at h1
    omega

theorem abs_pytrunc_sub_round (q : ℚ) : |pytrunc q - round q| ≤ 1 := by
  have h1 := pytrunc_bounds q
  have h2 := round_bounds q
  rw [abs_le]
  omega

theorem round_half_mul_pred (n : ℕ) :
    round ((1 - (1/2 : ℚ)) * ((n : ℚ) - 1)) = (n / 2 : ℕ) := by
  obtain ⟨m, hm⟩ : ∃ m : ℕ, n / 2 = m := ⟨_, rfl⟩
  have hx : (1 - (1/2 : ℚ)) * ((n : ℚ) - 1) + 1/2 = (n : ℚ) / 2 := by ring
  have h1q : 2 * (m : ℚ) ≤ (n : ℚ) := by exact_mod_cast (by omega : 2 * m ≤ n)
  have h2q : (n : ℚ) < 2 * (m : ℚ) + 2 := by exact_mod_cast (by omega : n < 2 * m + 2)
  rw [hm, round_eq, hx, Int.floor_eq_iff]
  constructor
  · push_cast
    linarith
  · push_cast
    linarith

theorem clamp01_bounds (q : ℚ) : 0 ≤ clamp01 q ∧ clamp01 q ≤ 1 := by
  unfold clamp01 pymax pymin
  split_ifs <;> constructor <;> linarith

theorem round_half_mul_pred' (n : ℕ) :
    round ((1/2 : ℚ) * ((n : ℚ) - 1)) = (n / 2 : ℕ) := by
  have h : ((1/2 : ℚ)) * ((n : ℚ) - 1) = (1 - (1/2 : ℚ)) * ((n : ℚ) - 1) := by ring
  rw [h, round_half_mul_pred]

theorem reset_consistent (d : Dims3) :
    consistent d (reset_crosshair_and_slices d) := by
  refine ⟨?_, ?_, ?_⟩ <;>
    simp only [reset_crosshair_and_slices, consistent]
  · rw [round_half_mul_pred d.nz]
    simp
  · rw [round_half_mul_pred' d.ny]
    simp
  · rw [round_half_mul_pred' d.nx]
    simp

theorem set_slice_from_crosshair_preserves (d : Dims3) (v : String)
    (x y : ℚ) (st : MPRState) (h : consistent d st) :
    consistent d (set_slice_from_crosshair d v x y st) := by
  obtain ⟨h1, h2, h3⟩ := h
  unfold set_slice_from_crosshair
  split_ifs <;>
    exact ⟨by first | exact h1 | exact abs_pytrunc_sub_round _,
           by first | exact h2 | exact abs_pytrunc_sub_round _,
           by first | exact h3 | exact abs_pytrunc_sub_round _⟩

theorem set_slice_from_scroll_preserves (d : Dims3) (v : String) (i : ℤ)
    (st : MPRState) (hv : validEvent d (.scroll v i) = true)
    (h : consistent d st) :
    consistent d (set_slice_from_scroll d v i st) := by
  obtain ⟨h1, h2, h3⟩ := h
  simp only [validEvent] at hv
  unfold set_slice_from_scroll
  by_cases hax : v = "axial"
  · subst hax
    rw [if_pos rfl] at hv
    rw [if_neg (by decide : ¬("axial" : String) = "oblique"), if_pos rfl]
    obtain ⟨hi0, hi1⟩ := of_decide_eq_true hv
    by_cases hnz : 1 < d.nz
    · rw [if_pos hnz]
      have hne : ((d.nz : ℚ) - 1) ≠ 0 := by
        have : (1 : ℚ) < (d.nz : ℚ) := by exact_mod_cast hnz
        linarith
      refine ⟨?_, h2, h3⟩
      simp only [sub_sub_cancel, div_mul_cancel₀ _ hne, round_intCast]
      simp
    · rw [if_neg hnz]
      have hz : d.nz = 1 := by omega
      have hiz : i = 0 := by omega
      refine ⟨?_, h2, h3⟩
      simp [hz, hiz]
  · by_cases hco : v = "coronal"
    · subst hco
      rw [if_neg (by decide : ¬("coronal" : String) = "axial"), if_pos rfl] at hv
      rw [if_neg (by decide : ¬("coronal" : String) = "oblique"),
        if_neg (by decide : ¬("coronal" : String) = "axial"), if_pos rfl]
      obtain ⟨hi0, hi1⟩ := of_decide_eq_true hv
      by_cases hny : 1 < d.ny
      · rw [if_pos hny]
        have hne : ((d.ny : ℚ) - 1) ≠ 0 := by
          have : (1 : ℚ) < (d.ny : ℚ) := by exact_mod_cast hny
          linarith
        refine ⟨h1, ?_, h3⟩
        simp only [div_mul_cancel₀ _ hne, round_intCast]
        simp
      · rw [if_neg hny]
        have hz : d.ny = 1 := by omega
        have hiz : i = 0 := by omega
        refine ⟨h1, ?_, h3⟩
        simp [hz, hiz]
    · by_cases hsa : v = "sagittal"
      · subst hsa
        rw [if_neg (by decide : ¬("sagittal" : String) = "axial"),
          if_neg (by decide : ¬("sagittal" : String) = "coronal"), if_pos rfl] at hv
        rw [if_neg (by decide : ¬("sagittal" : String) = "oblique"),
          if_neg (by decide : ¬("sagittal" : String) = "axial"),
          if_neg (by decide : ¬("sagittal" : String) = "coronal"), if_pos rfl]
        obtain ⟨hi0, hi1⟩ := of_decide_eq_true hv
        by_cases hnx : 1 < d.nx
        · rw [if_pos hnx]
          have hne : ((d.nx : ℚ) - 1) ≠ 0 := by
            have : (1 : ℚ) < (d.nx : ℚ) := by exact_mod_cast hnx
            linarith
          refine ⟨h1, h2, ?_⟩
          simp only [div_mul_cancel₀ _ hne, round_intCast]
          simp
        · rw [if_neg hnx]
          have hz : d.nx = 1 := by omega
          have hiz : i = 0 := by omega
          refine ⟨h1, h2, ?_⟩
          simp [hz, hiz]
      · by_cases hob : v = "oblique"
        · subst hob
          rw [if_pos rfl]
          exact ⟨h1, h2, h3⟩
        · rw [if_neg hax, if_neg hco, if_neg hsa, if_neg hob] at hv
          exact absurd hv (by decide)

theorem uiStep_preserves (d : Dims3) (e : UiEvent) (st : MPRState)
    (hv : validEvent d e = true) (h : consistent d st) :
    consistent d (uiStep d e st) := by
  cases e with
  | click v x y => exact set_slice_from_crosshair_preserves d v x y st h
  | scroll v i => exact set_slice_from_scroll_preserves d v i st hv h

theorem foldl_consistent_aux (d : Dims3) (l : List UiEvent) :
    ∀ st : MPRState, l.all (validEvent d) = true → consistent d st →
      consistent d (l.foldl (fun s e => uiStep d e s) st) := by
  induction l with
  | nil => intro st _ hst; exact hst
  | cons e tl ih =>
    intro st hall hst
    rw [List.all_cons, Bool.and_eq_true] at hall
    exact ih _ hall.2 (uiStep_preserves d e st hall.1 hst)

/-! ## Claim theorems: coordinator -/

/-- C1: starting from the reset state, after any sequence of
Transition-A calls (`set_slice_from_crosshair`, arbitrary click
coordinates) and Transition-B calls (`set_slice_from_scroll`, slice
indices in range for their axis), the stored orthogonal slice indices
satisfy `slices.axial = round ((1-A)*(Nz-1))`,
`slices.coronal = round (C*(Ny-1))` and
`slices.sagittal = round (S*(Nx-1))`, each within 1, after every call
(the code truncates with `int(...)` where the spec rounds, which is
exactly the tolerated off-by-one). -/
theorem C1_round_trip_consistency (d : Dims3) (es : List UiEvent)
    (h : es.all (validEvent d) = true) :
    consistent d (runEvents d es) :=
  foldl_consistent_aux d es (reset_crosshair_and_slices d) h
    (reset_consistent d)

theorem C1_round_trip_consistency_witness :
    ([UiEvent.click "axial" (1/5) (4/5),
      UiEvent.scroll "coronal" 7].all (validEvent ⟨100, 100, 50⟩) = true) ∧
    consistent ⟨100, 100, 50⟩
      (runEvents ⟨100, 100, 50⟩
        [UiEvent.click "axial" (1/5) (4/5), UiEvent.scroll "coronal" 7]) :=
  ⟨by decide, C1_round_trip_consistency ⟨100, 100, 50⟩ _ (by decide)⟩

/-- C2 counterexample: for volume shape (100,100,50), a click in the
axial view at (0.2, 0.8) from the reset state stores
`slices.sagittal = int(0.2*99) = 19`, not `round(0.2*99) = 20` as the
claim states (the code truncates, it does not round). -/
theorem C2_click_scenario_counterexample :
    (set_slice_from_crosshair ⟨100, 100, 50⟩ "axial" (1/5) (4/5)
      (reset_crosshair_and_slices ⟨100, 100, 50⟩)).sagittal = 19 ∧
    (19 : ℤ) ≠ round ((1/5 : ℚ) * 99) := by
  constructor
  · unfold set_slice_from_crosshair reset_crosshair_and_slices
    rw [if_pos rfl]
    norm_num [clamp01, pymin, pymax, pytrunc]
  · norm_num [round_eq]

/-- C2 amended: in the scenario of the claim the click sets S = 0.2 and
C = 0.8, sets `slices.coronal = int(0.8*99) = 79` and
`slices.sagittal = int(0.2*99) = 19` (truncation, one below the claimed
rounded value 20), and leaves `slices.axial` unchanged at 25. -/
theorem C2_click_scenario_amended :
    set_slice_from_crosshair ⟨100, 100, 50⟩ "axial" (1/5) (4/5)
      (reset_crosshair_and_slices ⟨100, 100, 50⟩) =
    { S := 1/5, C := 4/5, A := 1/2
    , axial := 25, coronal := 79, sagittal := 19, oblique := 25 } := by
  unfold set_slice_from_crosshair reset_crosshair_and_slices
  rw [if_pos rfl]
  norm_num [clamp01, pymin, pymax, pytrunc, MPRState.mk.injEq]

/-- C3: a Transition-A call with arbitrary (possibly out-of-range)
click coordinates leaves all of S, C, A inside [0,1] (given that the
pre-state satisfies the spec invariant that they are in [0,1]); the
two fractions written by the call equal the inputs clamped to [0,1]
and the third is unchanged. -/
theorem C3_crosshair_clamping (d : Dims3) (v : String) (x y : ℚ)
    (st : MPRState)
    (hv : v = "axial" ∨ v = "coronal" ∨ v = "sagittal")
    (hS : 0 ≤ st.S ∧ st.S ≤ 1) (hC : 0 ≤ st.C ∧ st.C ≤ 1)
    (hA : 0 ≤ st.A ∧ st.A ≤ 1) :
    (0 ≤ (set_slice_from_crosshair d v x y st).S ∧
      (set_slice_from_crosshair d v x y st).S ≤ 1) ∧
    (0 ≤ (set_slice_from_crosshair d v x y st).C ∧
      (set_slice_from_crosshair d v x y st).C ≤ 1) ∧
    (0 ≤ (set_slice_from_crosshair d v x y st).A ∧
      (set_slice_from_crosshair d v x y st).A ≤ 1) ∧
    (v = "axial" →
      (set_slice_from_crosshair d v x y st).S = clamp01 x ∧
      (set_slice_from_crosshair d v x y st).C = clamp01 y ∧
      (set_slice_from_crosshair d v x y st).A = st.A) ∧
    (v = "coronal" →
      (set_slice_from_crosshair d v x y st).S = clamp01 x ∧
      (set_slice_from_crosshair d v x y st).A = clamp01 y ∧
      (set_slice_from_crosshair d v x y st).C = st.C) ∧
    (v = "sagittal" →
      (set_slice_from_crosshair d v x y st).C = clamp01 x ∧
      (set_slice_from_crosshair d v x y st).A = clamp01 y ∧
      (set_slice_from_crosshair d v x y st).S = st.S) := by
  rcases hv with hv | hv | hv <;> subst hv <;>
    simp [set_slice_from_crosshair, clamp01_bounds x, clamp01_bounds y,
      hS.1, hS.2, hC.1, hC.2, hA.1, hA.2]

theorem C3_crosshair_clamping_witness :
    0 ≤ (set_slice_from_crosshair ⟨100, 100, 50⟩ "axial" (-3/10) (17/10)
          (reset_crosshair_and_slices ⟨100, 100, 50⟩)).S ∧
    (set_slice_from_crosshair ⟨100, 100, 50⟩ "axial" (-3/10) (17/10)
          (reset_crosshair_and_slices ⟨100, 100, 50⟩)).C ≤ 1 :=
  ⟨(C3_crosshair_clamping ⟨100, 100, 50⟩ "axial" (-3/10) (17/10)
      (reset_crosshair_and_slices ⟨100, 100, 50⟩) (Or.inl rfl)
      (by norm_num [reset_crosshair_and_slices])
      (by norm_num [reset_crosshair_and_slices])
      (by norm_num [reset_crosshair_and_slices])).1.1,
   (C3_crosshair_clamping ⟨100, 100, 50⟩ "axial" (-3/10) (17/10)
      (reset_crosshair_and_slices ⟨100, 100, 50⟩) (Or.inl rfl)
      (by norm_num [reset_crosshair_and_slices])
      (by norm_num [reset_crosshair_and_slices])
      (by norm_num [reset_crosshair_and_slices])).2.1.2⟩

/-- C9: both transitions are idempotent: repeating a
`set_slice_from_crosshair` call with identical arguments, or a
`set_slice_from_scroll` call with identical arguments, leaves exactly
the state reached after the first call.  Determinism is inherent: the
transitions are modelled as pure functions of the state and inputs. -/
theorem C9_transitions_idempotent (d : Dims3) (v : String) (x y : ℚ)
    (w : String) (i : ℤ) (st : MPRState) :
    set_slice_from_crosshair d v x y (set_slice_from_crosshair d v x y st) =
      set_slice_from_crosshair d v x y st ∧
    set_slice_from_scroll d w i (set_slice_from_scroll d w i st) =
      set_slice_from_scroll d w i st := by
  constructor
  · unfold set_slice_from_crosshair
    split_ifs <;> rfl
  · unfold set_slice_from_scroll
    split_ifs <;> rfl

/-- C10: calling `set_slice_from_crosshair` with a source view other
than axial/coronal/sagittal (e.g. "oblique") changes nothing: no
branch of the if/elif chain fires, so S, C, A and all four slice
indices keep their previous values (the trailing `update_all_views()`
is only a repaint). -/
theorem C10_unknown_source_view_noop (d : Dims3) (v : String)
    (x y : ℚ) (st : MPRState)
    (h1 : v ≠ "axial") (h2 : v ≠ "coronal") (h3 : v ≠ "sagittal") :
    set_slice_from_crosshair d v x y st = st := by
  unfold set_slice_from_crosshair
  rw [if_neg h1, if_neg h2, if_neg h3]

theorem C10_unknown_source_view_noop_witness :
    set_slice_from_crosshair ⟨100, 100, 50⟩ "oblique" (1/5) (4/5)
      (reset_crosshair_and_slices ⟨100, 100, 50⟩) =
    reset_crosshair_and_slices ⟨100, 100, 50⟩ :=
  C10_unknown_source_view_noop ⟨100, 100, 50⟩ "oblique" (1/5) (4/5)
    (reset_crosshair_and_slices ⟨100, 100, 50⟩)
    (by decide) (by decide) (by decide)

/-- C4: the wheel-scroll handler computes the next slice index as
`(current + direction) % axis_length` for each of the four views
(axis length Nz for axial and oblique, Ny for coronal, Nx for
sagittal); in particular on the axial view, index Nz-1 with
direction +1 wraps to 0, and index 0 with direction -1 wraps to
Nz-1. -/
theorem C4_wheel_wraparound (d : Dims3) (cur dir : ℤ)
    (hdir : dir = 1 ∨ dir = -1) :
    (wheelNextSlice d "axial" cur dir =
        some ((cur + dir) % (d.nz : ℤ)) ∧
      wheelNextSlice d "oblique" cur dir =
        some ((cur + dir) % (d.nz : ℤ)) ∧
      wheelNextSlice d "coronal" cur dir =
        some ((cur + dir) % (d.ny : ℤ)) ∧
      wheelNextSlice d "sagittal" cur dir =
        some ((cur + dir) % (d.nx : ℤ))) ∧
    (1 ≤ d.nz →
      wheelNextSlice d "axial" ((d.nz : ℤ) - 1) 1 = some 0 ∧
      wheelNextSlice d "axial" 0 (-1) = some ((d.nz : ℤ) - 1)) := by
  constructor
  · refine ⟨?_, ?_, ?_, ?_⟩ <;> simp [wheelNextSlice]
  · intro hnz
    have hz : (1 : ℤ) ≤ (d.nz : ℤ) := by exact_mod_cast hnz
    constructor
    · simp only [wheelNextSlice, reduceIte]
      rw [sub_add_cancel, Int.emod_self]
      simp
    · simp only [wheelNextSlice, reduceIte]
      have he : (0 : ℤ) + -1 = ((d.nz : ℤ) - 1) + -1 * (d.nz : ℤ) := by
        ring
      rw [he, Int.add_mul_emod_self, Int.emod_eq_of_lt (by omega) (by omega)]
      simp

theorem C4_wheel_wraparound_witness :
    ((1 : ℤ) = 1 ∨ (1 : ℤ) = -1) ∧
    wheelNextSlice ⟨3, 4, 5⟩ "axial" (((5 : ℕ) : ℤ) - 1) 1 = some 0 ∧
    wheelNextSlice ⟨3, 4, 5⟩ "axial" 0 (-1) = some (((5 : ℕ) : ℤ) - 1) :=
  ⟨Or.inl rfl,
   ((C4_wheel_wraparound ⟨3, 4, 5⟩ 0 1 (Or.inl rfl)).2 (by norm_num)).1,
   ((C4_wheel_wraparound ⟨3, 4, 5⟩ 0 1 (Or.inl rfl)).2 (by norm_num)).2⟩

/-! ## Slice extraction (`utils/loader.py`), over exact reals.
Pixel values are reals (exact-real semantics of the float code);
`none` models an uncaught numpy exception. -/

noncomputable section

/-- Python `int(x)` on a real: truncation toward zero. -/
def pytruncR (x : ℝ) : ℤ := if 0 ≤ x then ⌊x⌋ else ⌈x⌉

/-- A 3D scalar volume of shape `(nx, ny, nz)`; `data` is total on `ℤ`
indices (in-range indices correspond to actual array reads). -/
structure Volume3 where
  nx : ℕ
  ny : ℕ
  nz : ℕ
  data : ℤ → ℤ → ℤ → ℝ

/-- A 2D image of shape `(h, w)`, row-major like a numpy array. -/
structure Img where
  h : ℕ
  w : ℕ
  pix : ℤ → ℤ → ℝ

/-- `np.rot90(m)`: counterclockwise quarter turn,
`rot90(m)[i, j] = m[j, W-1-i]`. -/
def nprot90 (m : Img) : Img :=
  ⟨m.w, m.h, fun i j => m.pix j ((m.w : ℤ) - 1 - i)⟩

/-- `np.flipud(m)`: reverse the rows. -/
def npflipud (m : Img) : Img :=
  ⟨m.h, m.w, fun i j => m.pix ((m.h : ℤ) - 1 - i) j⟩

/-- `np.flipud(np.rot90(data[:, :, k]))` (`get_slice_data` line 238). -/
def extractAxial (v : Volume3) (k : ℤ) : Img :=
  npflipud (nprot90 ⟨v.nx, v.ny, fun i j => v.data i j k⟩)

/-- `np.rot90(data[:, k, :])` (`get_slice_data` line 241). -/
def extractCoronal (v : Volume3) (k : ℤ) : Img :=
  nprot90 ⟨v.nx, v.nz, fun i j => v.data i k j⟩

/-- `np.rot90(data[k, :, :])` (`get_slice_data` line 244). -/
def extractSagittal (v : Volume3) (k : ℤ) : Img :=
  nprot90 ⟨v.ny, v.nz, fun i j => v.data k i j⟩

/-- `data.min()`: numpy raises `ValueError` on an empty array,
modelled as `none`; otherwise the infimum of the (finite) pixel set. -/
def volMin (v : Volume3) : Option ℝ :=
  if v.nx * v.ny * v.nz = 0 then none
  else some (sInf {x : ℝ | ∃ i j k : ℤ, 0 ≤ i ∧ i < (v.nx : ℤ) ∧
    0 ≤ j ∧ j < (v.ny : ℤ) ∧ 0 ≤ k ∧ k < (v.nz : ℤ) ∧ v.data i j k = x})

/-- `slice_data.min()` for a 2D slice; only reached on nonempty slices
(the size-0 early return fires first). -/
def imgMin (m : Img) : ℝ :=
  sInf {x : ℝ | ∃ i j : ℤ, 0 ≤ i ∧ i < (m.h : ℤ) ∧
    0 ≤ j ∧ j < (m.w : ℤ) ∧ m.pix i j = x}

/-- `np.linspace(a, b, num)` evaluated at position `i`
(`num = 1` yields `[a]`). -/
def linspaceVal (a b : ℝ) (num : ℕ) (i : ℤ) : ℝ :=
  if num ≤ 1 then a else a + (i : ℝ) * (b - a) / ((num : ℝ) - 1)

/-- One image read with the constant fill value outside the bounds. -/
def imgAt (m : Img) (cv : ℝ) (i j : ℤ) : ℝ :=
  if 0 ≤ i ∧ i < (m.h : ℤ) ∧ 0 ≤ j ∧ j < (m.w : ℤ) then m.pix i j else cv

/-- `map_coordinates(m, [y, x], order=1, mode='constant', cval=cv)` at
one output point: bilinear interpolation with constant fill. -/
def mapCoordinates2 (m : Img) (cv : ℝ) (y x : ℝ) : ℝ :=
  let i0 := ⌊y⌋
  let j0 := ⌊x⌋
  let fy := y - (i0 : ℝ)
  let fx := x - (j0 : ℝ)
  (1 - fy) * ((1 - fx) * imgAt m cv i0 j0 + fx * imgAt m cv i0 (j0 + 1)) +
    fy * ((1 - fx) * imgAt m cv (i0 + 1) j0 + fx * imgAt m cv (i0 + 1) (j0 + 1))

/-- The aspect-ratio correction block of `get_slice_data` (lines
268-277): skipped only when a spacing is exactly zero or the new
height truncates to 0; otherwise the rows are resampled on
`linspace(0, h-1, new_height)`. -/
def aspectCorrect (xsp ysp : ℝ) (m : Img) : Img :=
  if xsp ≠ 0 ∧ ysp ≠ 0 then
    if 0 < pytruncR ((m.h : ℝ) * |ysp / xsp|) then
      ⟨(pytruncR ((m.h : ℝ) * |ysp / xsp|)).toNat, m.w,
        fun i j => mapCoordinates2 m (imgMin m)
          (linspaceVal 0 ((m.h : ℝ) - 1)
            (pytruncR ((m.h : ℝ) * |ysp / xsp|)).toNat i) (j : ℝ)⟩
    else m
  else m

/-- `np.clip(x, lo, hi)`. -/
def npclip (x lo hi : ℝ) : ℝ := min (max x lo) hi

/-- The intensity-window block of `get_slice_data` (lines 279-283):
clip to the window and rescale to [0,255], or `np.zeros_like` when the
window is degenerate (`max <= min`). -/
def windowStage (minI maxI : ℝ) (m : Img) : Img :=
  if minI < maxI then
    ⟨m.h, m.w, fun i j =>
      255 * (npclip (m.pix i j) minI maxI - minI) / (maxI - minI)⟩
  else ⟨m.h, m.w, fun _ _ => 0⟩

/-- `.astype(np.uint8)` (line 285): the windowed values are already in
[0, 255], so the cast truncates toward zero. -/
def truncStage (m : Img) : Img :=
  ⟨m.h, m.w, fun i j => ((pytruncR (m.pix i j) : ℤ) : ℝ)⟩

/-- `np.zeros((10, 10), dtype=np.uint8)`, the placeholder image. -/
def zeros10 : Img := ⟨10, 10, fun _ _ => 0⟩

/-! ### Oblique-plane geometry -/

abbrev Vec3 := ℝ × ℝ × ℝ

def dot3 (a b : Vec3) : ℝ := a.1 * b.1 + a.2.1 * b.2.1 + a.2.2 * b.2.2

def v3sub (a b : Vec3) : Vec3 := (a.1 - b.1, a.2.1 - b.2.1, a.2.2 - b.2.2)

def v3add (a b : Vec3) : Vec3 := (a.1 + b.1, a.2.1 + b.2.1, a.2.2 + b.2.2)

def v3smul (t : ℝ) (a : Vec3) : Vec3 := (t * a.1, t * a.2.1, t * a.2.2)

/-- `np.deg2rad`. -/
def deg2rad (x : ℝ) : ℝ := x * (Real.pi / 180)

/-- `rot_x_mat @ p` for `rot_x_mat = [[1,0,0],[0,c,-s],[0,s,c]]`. -/
def rotXv (t : ℝ) (p : Vec3) : Vec3 :=
  (p.1, Real.cos t * p.2.1 - Real.sin t * p.2.2,
   Real.sin t * p.2.1 + Real.cos t * p.2.2)

/-- `rot_y_mat @ p` for `rot_y_mat = [[c,0,s],[0,1,0],[-s,0,c]]`. -/
def rotYv (t : ℝ) (p : Vec3) : Vec3 :=
  (Real.cos t * p.1 + Real.sin t * p.2.2, p.2.1,
   -Real.sin t * p.1 + Real.cos t * p.2.2)

/-- `transform_mat = rot_y_mat @ rot_x_mat` applied to a vector, with
the negated angles `theta = deg2rad(-rot_deg)` used by both oblique
code paths (`loader.py` 198-202 and 314-318). -/
def obliqueTransform (rx ry : ℝ) (p : Vec3) : Vec3 :=
  rotYv (deg2rad (-ry)) (rotXv (deg2rad (-rx)) p)

def uVec (rx ry : ℝ) : Vec3 := obliqueTransform rx ry (1, 0, 0)

def vVec (rx ry : ℝ) : Vec3 := obliqueTransform rx ry (0, 1, 0)

/-- The plane normal `w_vec`. -/
def wVec (rx ry : ℝ) : Vec3 := obliqueTransform rx ry (0, 0, 1)

/-- The normalized cursor dict as consumed by the loader. -/
structure NormCoords where
  S : ℝ
  C : ℝ
  A : ℝ

/-- `point_voxel` (`loader.py` 188-192): the cursor in voxel
coordinates, with the inverted axial (Z) convention. -/
def cursorVoxel (c : NormCoords) (d : Dims3) : Vec3 :=
  (c.S * ((d.nx : ℝ) - 1), c.C * ((d.ny : ℝ) - 1),
   (1 - c.A) * ((d.nz : ℝ) - 1))

/-- `np.array(shape) / 2.0`, the volume center. -/
def volCenter (d : Dims3) : Vec3 :=
  ((d.nx : ℝ) / 2, (d.ny : ℝ) / 2, (d.nz : ℝ) / 2)

/-- `slice_dim = int(np.linalg.norm(shape))`. -/
def sliceDimZ (d : Dims3) : ℤ :=
  pytruncR (Real.sqrt ((d.nx : ℝ) ^ 2 + (d.ny : ℝ) ^ 2 + (d.nz : ℝ) ^ 2))

/-- `project_point_to_oblique_plane` (`loader.py` 168-224). -/
def project_point_to_oblique_plane (nc : Option NormCoords)
    (shape : Dims3) (rx ry : ℝ) : ℝ × ℝ × ℝ :=
  match nc with
  | none => (1/2, 1/2, 0)
  | some c =>
    let rel := v3sub (cursorVoxel c shape) (volCenter shape)
    let uc := dot3 rel (uVec rx ry)
    let vc := dot3 rel (vVec rx ry)
    let depth := dot3 rel (wVec rx ry)
    let s : ℝ := ((sliceDimZ shape : ℤ) : ℝ)
    ((uc + s / 2) / s, (vc + s / 2) / s, depth)

/-- The `slice_offset` of the oblique branch of `get_slice_data`
(lines 249-257); Python floor division `slice_dim // 2` agrees with
`Int` division because `slice_dim >= 0`. -/
def obliqueSliceIndex (nc : Option NormCoords) (dims : Dims3)
    (rx ry : ℝ) : ℤ :=
  match nc with
  | some _ =>
    pytruncR ((project_point_to_oblique_plane nc dims rx ry).2.2 +
      ((sliceDimZ dims : ℤ) : ℝ) / 2)
  | none => sliceDimZ dims / 2

/-- The 3D sample point of `_get_oblique_slice` for output pixel
(row i, col j) (`loader.py` 324-334):
`center + xx*u + yy*v + (slice_idx - slice_dim/2)*w` with
`xx = -slice_dim/2 + j` and `yy = -slice_dim/2 + i` from the
`arange`/`meshgrid` grid. -/
def samplePointAt (d : Dims3) (ctr : Vec3) (rx ry : ℝ)
    (sliceIdx : ℤ) (i j : ℤ) : Vec3 :=
  v3add (v3add (v3add ctr
      (v3smul (-(((sliceDimZ d : ℤ) : ℝ) / 2) + (j : ℝ)) (uVec rx ry)))
      (v3smul (-(((sliceDimZ d : ℤ) : ℝ) / 2) + (i : ℝ)) (vVec rx ry)))
    (v3smul ((sliceIdx : ℝ) - ((sliceDimZ d : ℤ) : ℝ) / 2) (wVec rx ry))

/-- One volume read with the constant fill value outside the bounds. -/
def volAt (v : Volume3) (cv : ℝ) (i j k : ℤ) : ℝ :=
  if 0 ≤ i ∧ i < (v.nx : ℤ) ∧ 0 ≤ j ∧ j < (v.ny : ℤ) ∧
      0 ≤ k ∧ k < (v.nz : ℤ) then v.data i j k else cv

/-- `map_coordinates(data, coords, order=1, mode='constant', cval=cv)`
at one 3D point: trilinear interpolation with constant fill. -/
def mapCoordinates3 (v : Volume3) (cv : ℝ) (p : Vec3) : ℝ :=
  let i0 := ⌊p.1⌋
  let j0 := ⌊p.2.1⌋
  let k0 := ⌊p.2.2⌋
  let fx := p.1 - (i0 : ℝ)
  let fy := p.2.1 - (j0 : ℝ)
  let fz := p.2.2 - (k0 : ℝ)
  (1 - fx) * ((1 - fy) * ((1 - fz) * volAt v cv i0 j0 k0 +
        fz * volAt v cv i0 j0 (k0 + 1)) +
      fy * ((1 - fz) * volAt v cv i0 (j0 + 1) k0 +
        fz * volAt v cv i0 (j0 + 1) (k0 + 1))) +
    fx * ((1 - fy) * ((1 - fz) * volAt v cv (i0 + 1) j0 k0 +
        fz * volAt v cv (i0 + 1) j0 (k0 + 1)) +
      fy * ((1 - fz) * volAt v cv (i0 + 1) (j0 + 1) k0 +
        fz * volAt v cv (i0 + 1) (j0 + 1) (k0 + 1)))

/-- `_get_oblique_slice` (`loader.py` 288-338): `data.min()` raises on
an empty volume (modelled `none`); otherwise a square
`slice_dim x slice_dim` image sampled trilinearly on the rotated
grid. -/
def get_oblique_slice (v : Volume3) (rx ry : ℝ)
    (sliceIdx : ℤ) (centerPos : Option Vec3) : Option Img :=
  let dv : Dims3 := ⟨v.nx, v.ny, v.nz⟩
  let ctr : Vec3 :=
    match centerPos with
    | none => volCenter dv
    | some p => (p.1 * ((v.nx : ℝ) - 1), p.2.1 * ((v.ny : ℝ) - 1),
                 (1 - p.2.2) * ((v.nz : ℝ) - 1))
  match volMin v with
  | none => none
  | some cv =>
    some ⟨(sliceDimZ dv).toNat, (sliceDimZ dv).toNat,
      fun i j => mapCoordinates3 v cv (samplePointAt dv ctr rx ry sliceIdx i j)⟩

/-- The slice-index dict as passed to `get_slice_data`. -/
structure Slices4 where
  axial : ℤ
  coronal : ℤ
  sagittal : ℤ
  oblique : ℤ

/-- The 4x4 affine: `get_slice_data` reads only the diagonal spacing
entries `affine[0,0]`, `affine[1,1]`, `affine[2,2]`. -/
structure Affine3 where
  a00 : ℝ
  a11 : ℝ
  a22 : ℝ

/-- The size-check / aspect-correction / windowing / uint8 tail of
`get_slice_data` (lines 262-285), shared by all views that produced a
slice. -/
def postProcessImg (m : Img) (xsp ysp minI maxI : ℝ) : Img :=
  if m.h * m.w = 0 then zeros10
  else truncStage (windowStage minI maxI (aspectCorrect xsp ysp m))

/-- `get_slice_data` (`loader.py` 227-285).  `none` models an uncaught
exception; every other outcome is `some` image. -/
def get_slice_data (data : Option Volume3) (dims : Dims3)
    (slices : Slices4) (affine : Affine3) (minI maxI : ℝ) (rx ry : ℝ)
    (view_type : String) (norm_coords : Option NormCoords) : Option Img :=
  match data with
  | none => some zeros10
  | some v =>
    if view_type = "axial" then
      some (postProcessImg (extractAxial v slices.axial)
        affine.a00 affine.a11 minI maxI)
    else if view_type = "coronal" then
      some (postProcessImg (extractCoronal v slices.coronal)
        affine.a00 affine.a22 minI maxI)
    else if view_type = "sagittal" then
      some (postProcessImg (extractSagittal v slices.sagittal)
        affine.a11 affine.a22 minI maxI)
    else if view_type = "oblique" then
      match get_oblique_slice v rx ry
          (obliqueSliceIndex norm_coords dims rx ry) none with
      | none => none
      | some m => some (postProcessImg m 1 1 minI maxI)
    else some zeros10

/-- The base point of the plane actually sampled by the oblique branch:
volume center shifted along the normal by the quantized depth offset
(`loader.py` 329-334 with `center_position=None`). -/
def obliquePlanePoint (d : Dims3) (rx ry : ℝ)
    (sliceIdx : ℤ) : Vec3 :=
  v3add (volCenter d)
    (v3smul ((sliceIdx : ℝ) - ((sliceDimZ d : ℤ) : ℝ) / 2) (wVec rx ry))

/-- Signed distance along the plane normal from the sampled oblique
plane to the cursor voxel, when the slice index is derived from the
cursor exactly as in the oblique branch of `get_slice_data`. -/
def obliquePlaneResidual (c : NormCoords) (d : Dims3)
    (rx ry : ℝ) : ℝ :=
  dot3 (v3sub (cursorVoxel c d)
      (obliquePlanePoint d rx ry (obliqueSliceIndex (some c) d rx ry)))
    (wVec rx ry)

end

/-! ## Helper lemmas for the loader -/

theorem abs_sub_pytruncR_lt_one (x : ℝ) : |x - (pytruncR x : ℝ)| < 1 := by
  unfold pytruncR
  split_ifs with h
  · rw [abs_lt]
    constructor
    · have := Int.floor_le x
      linarith
    · have := Int.lt_floor_add_one x
      push_cast at this
      linarith
  · rw [abs_lt]
    constructor
    · have := Int.ceil_lt_add_one x
      push_cast at this
      linarith
    · have := Int.le_ceil x
      linarith

theorem dot3_sub_left (a b w : Vec3) :
    dot3 (v3sub a b) w = dot3 a w - dot3 b w := by
  simp only [dot3, v3sub]
  ring

theorem dot3_add_left (a b w : Vec3) :
    dot3 (v3add a b) w = dot3 a w + dot3 b w := by
  simp only [dot3, v3add]
  ring

theorem dot3_smul_left (t : ℝ) (a w : Vec3) :
    dot3 (v3smul t a) w = t * dot3 a w := by
  simp only [dot3, v3smul]
  ring

theorem wVec_normSq (rx ry : ℝ) : dot3 (wVec rx ry) (wVec rx ry) = 1 := by
  have hx := Real.sin_sq_add_cos_sq (deg2rad (-rx))
  have hy := Real.sin_sq_add_cos_sq (deg2rad (-ry))
  simp only [wVec, obliqueTransform, rotXv, rotYv, dot3]
  linear_combination (Real.cos (deg2rad (-rx))) ^ 2 * hy + hx

/-! ## Claim theorems: oblique geometry (C5) -/

/-- C5 counterexample: with rotation angles (0,0), volume shape
(10,10,10) and cursor (S,C,A) = (0.5, 0.5, 0.4), the depth offset is
0.4 but `int()` quantizes the slice offset to an integer grid step, so
the sampled plane misses the cursor voxel by 0.9 voxel along the
normal: `dot(cursor_voxel - plane_point, w) = 0.9`, not ~0 within
floating-point tolerance. -/
theorem C5_oblique_containment_counterexample :
    obliquePlaneResidual ⟨1/2, 1/2, 2/5⟩ ⟨10, 10, 10⟩ 0 0 = 9/10 ∧
    ((9 : ℝ)/10) ≠ 0 := by
  have hw : wVec 0 0 = ((0 : ℝ), (0 : ℝ), (1 : ℝ)) := by
    simp [wVec, obliqueTransform, rotXv, rotYv, deg2rad]
  have h17 : (17 : ℝ) ≤ Real.sqrt 300 := by
    rw [show (17 : ℝ) = Real.sqrt 289 by
      rw [show (289 : ℝ) = 17 ^ 2 by norm_num, Real.sqrt_sq (by norm_num)]]
    exact Real.sqrt_le_sqrt (by norm_num)
  have h18 : Real.sqrt 300 < 18 := by
    rw [show (18 : ℝ) = Real.sqrt 324 by
      rw [show (324 : ℝ) = 18 ^ 2 by norm_num, Real.sqrt_sq (by norm_num)]]
    exact Real.sqrt_lt_sqrt (by norm_num) (by norm_num)
  have hdim : sliceDimZ ⟨10, 10, 10⟩ = 17 := by
    unfold sliceDimZ pytruncR
    rw [show ((10 : ℕ) : ℝ) ^ 2 + ((10 : ℕ) : ℝ) ^ 2 + ((10 : ℕ) : ℝ) ^ 2 =
      (300 : ℝ) by norm_num]
    rw [if_pos (Real.sqrt_nonneg _), Int.floor_eq_iff]
    constructor
    · exact_mod_cast h17
    · push_cast
      linarith
  have hdepth : dot3 (v3sub (cursorVoxel ⟨1/2, 1/2, 2/5⟩ ⟨10, 10, 10⟩)
      (volCenter ⟨10, 10, 10⟩)) (wVec 0 0) = 2/5 := by
    rw [hw]
    simp only [dot3, v3sub, cursorVoxel, volCenter]
    norm_num
  have hproj : (project_point_to_oblique_plane (some ⟨1/2, 1/2, 2/5⟩)
      ⟨10, 10, 10⟩ 0 0).2.2 = 2/5 := by
    simp only [project_point_to_oblique_plane]
    exact hdepth
  have hidx : obliqueSliceIndex (some ⟨1/2, 1/2, 2/5⟩) ⟨10, 10, 10⟩ 0 0 = 8 := by
    simp only [obliqueSliceIndex, hproj, hdim]
    norm_num [pytruncR]
  constructor
  · unfold obliquePlaneResidual obliquePlanePoint
    rw [hidx, hdim, hw]
    simp only [dot3, v3sub, v3add, v3smul, cursorVoxel, volCenter]
    norm_num
  · norm_num

/-- C5 amended: the oblique plane actually sampled by `get_slice_data`
passes within one voxel of the cursor position along the plane normal
(`|dot(cursor_voxel - plane_point, w)| < 1`): the exact depth offset is
quantized to an integer slice index by `int()`, which is the only
error source.  Moreover the in-plane field of view never pans with the
cursor: two sample grids that differ only in the depth index differ by
a pure multiple of the normal `w` (the grid center is always the
volume center, `center_position=None`). -/
theorem C5_oblique_containment_amended (c : NormCoords) (d : Dims3)
    (rx ry : ℝ) (ctr : Vec3) (k1 k2 i j : ℤ) :
    |obliquePlaneResidual c d rx ry| < 1 ∧
    v3sub (samplePointAt d ctr rx ry k1 i j) (samplePointAt d ctr rx ry k2 i j) =
      v3smul ((k1 : ℝ) - (k2 : ℝ)) (wVec rx ry) := by
  constructor
  · have hw := wVec_normSq rx ry
    have hproj : (project_point_to_oblique_plane (some c) d rx ry).2.2 =
        dot3 (v3sub (cursorVoxel c d) (volCenter d)) (wVec rx ry) := by
      simp only [project_point_to_oblique_plane]
    have hidx : obliqueSliceIndex (some c) d rx ry =
        pytruncR (dot3 (v3sub (cursorVoxel c d) (volCenter d)) (wVec rx ry) +
          ((sliceDimZ d : ℤ) : ℝ) / 2) := by
      simp only [obliqueSliceIndex, hproj]
    have hres : obliquePlaneResidual c d rx ry =
        (dot3 (v3sub (cursorVoxel c d) (volCenter d)) (wVec rx ry) +
          ((sliceDimZ d : ℤ) : ℝ) / 2) -
        ((pytruncR (dot3 (v3sub (cursorVoxel c d) (volCenter d)) (wVec rx ry) +
          ((sliceDimZ d : ℤ) : ℝ) / 2) : ℤ) : ℝ) := by
      unfold obliquePlaneResidual obliquePlanePoint
      rw [hidx, dot3_sub_left, dot3_add_left, dot3_smul_left, hw]
      rw [dot3_sub_left]
      ring
    rw [hres]
    exact abs_sub_pytruncR_lt_one _
  · simp only [samplePointAt, v3sub, v3add, v3smul, Prod.mk.injEq]
    refine ⟨by ring, by ring, by ring⟩

/-! ## Helper lemmas: shapes and degeneracy of the extraction tail -/

theorem windowStage_h (a b : ℝ) (m : Img) : (windowStage a b m).h = m.h := by
  unfold windowStage
  split <;> rfl

theorem windowStage_w (a b : ℝ) (m : Img) : (windowStage a b m).w = m.w := by
  unfold windowStage
  split <;> rfl

theorem truncStage_h (m : Img) : (truncStage m).h = m.h := rfl

theorem truncStage_w (m : Img) : (truncStage m).w = m.w := rfl

theorem postProcessImg_shape (m : Img) (xs ys a b a' b' : ℝ) :
    (postProcessImg m xs ys a b).h = (postProcessImg m xs ys a' b').h ∧
    (postProcessImg m xs ys a b).w = (postProcessImg m xs ys a' b').w := by
  unfold postProcessImg
  split
  · exact ⟨rfl, rfl⟩
  · rw [truncStage_h, truncStage_w, truncStage_h, truncStage_w,
      windowStage_h, windowStage_w, windowStage_h, windowStage_w]
    exact ⟨rfl, rfl⟩

theorem postProcessImg_zero_of_degenerate (m : Img) (xs ys a b : ℝ)
    (hdeg : b ≤ a) (i j : ℤ) : (postProcessImg m xs ys a b).pix i j = 0 := by
  unfold postProcessImg
  split
  · rfl
  · unfold truncStage windowStage
    rw [if_neg (not_lt.mpr hdeg)]
    simp [pytruncR]

theorem volMin_isSome (v : Volume3) (hne : v.nx * v.ny * v.nz ≠ 0) :
    ∃ cv, volMin v = some cv := by
  unfold volMin
  rw [if_neg hne]
  exact ⟨_, rfl⟩

/-- For a nonempty volume, `get_slice_data` on any view either runs the
shared size/aspect/window/uint8 tail on a view-dependent raw slice (the
window parameters entering only through that tail), or short-circuits
to the 10x10 placeholder (unknown view). -/
theorem get_slice_data_cases (v : Volume3) (dims : Dims3) (sl : Slices4)
    (af : Affine3) (rx ry : ℝ) (view : String) (nc : Option NormCoords)
    (hne : v.nx * v.ny * v.nz ≠ 0) :
    (∃ m0 xs ys, ∀ minI maxI,
      get_slice_data (some v) dims sl af minI maxI rx ry view nc =
        some (postProcessImg m0 xs ys minI maxI)) ∨
    (∀ minI maxI,
      get_slice_data (some v) dims sl af minI maxI rx ry view nc =
        some zeros10) := by
  by_cases hax : view = "axial"
  · subst hax
    refine Or.inl ⟨extractAxial v sl.axial, af.a00, af.a11, fun a b => ?_⟩
    simp only [get_slice_data, String.reduceEq, reduceIte]
  by_cases hco : view = "coronal"
  · subst hco
    refine Or.inl ⟨extractCoronal v sl.coronal, af.a00, af.a22, fun a b => ?_⟩
    simp only [get_slice_data, String.reduceEq, reduceIte]
  by_cases hsa : view = "sagittal"
  · subst hsa
    refine Or.inl ⟨extractSagittal v sl.sagittal, af.a11, af.a22, fun a b => ?_⟩
    simp only [get_slice_data, String.reduceEq, reduceIte]
  by_cases hob : view = "oblique"
  · subst hob
    obtain ⟨cv, hcv⟩ := volMin_isSome v hne
    refine Or.inl ⟨⟨(sliceDimZ ⟨v.nx, v.ny, v.nz⟩).toNat,
      (sliceDimZ ⟨v.nx, v.ny, v.nz⟩).toNat,
      fun i j => mapCoordinates3 v cv (samplePointAt ⟨v.nx, v.ny, v.nz⟩
        (volCenter ⟨v.nx, v.ny, v.nz⟩) rx ry
        (obliqueSliceIndex nc dims rx ry) i j)⟩, 1, 1, fun a b => ?_⟩
    simp only [get_slice_data, String.reduceEq, reduceIte, get_oblique_slice, hcv]
  · refine Or.inr fun a b => ?_
    simp only [get_slice_data]
    rw [if_neg hax, if_neg hco, if_neg hsa, if_neg hob]

theorem aspectCorrect_skip (xsp ysp : ℝ) (m : Img)
    (h : xsp = 0 ∨ ysp = 0) : aspectCorrect xsp ysp m = m := by
  unfold aspectCorrect
  rw [if_neg]
  rintro ⟨hx, hy⟩
  rcases h with h | h
  · exact hx h
  · exact hy h

theorem aspectCorrect_h_resample (xsp ysp : ℝ) (m : Img)
    (hx : xsp ≠ 0) (hy : ysp ≠ 0)
    (hpos : 0 < pytruncR ((m.h : ℝ) * |ysp / xsp|)) :
    (aspectCorrect xsp ysp m).h =
      (pytruncR ((m.h : ℝ) * |ysp / xsp|)).toNat := by
  unfold aspectCorrect
  rw [if_pos ⟨hx, hy⟩, if_pos hpos]

theorem postProcessImg_of_skip (m : Img) (xs ys a b : ℝ)
    (hsz : m.h * m.w ≠ 0) (h : xs = 0 ∨ ys = 0) :
    postProcessImg m xs ys a b = truncStage (windowStage a b m) := by
  unfold postProcessImg
  rw [if_neg hsz, aspectCorrect_skip xs ys m h]

/-! ## Claim theorems: extraction pipeline (C6, C7, C8) -/

/-- C6: for a loaded volume (all dimensions at least 1), any view type
and any slice indices, a degenerate intensity window (max <= min)
yields `some` image (totality models "no exception is raised"), all of
whose pixels are zero, and whose shape equals the shape produced under
any other (in particular non-degenerate) window.  Slice indices are
quantified over all of `ℤ`; in-range indices correspond to actual
array reads. -/
theorem C6_degenerate_window (v : Volume3) (dims : Dims3) (sl : Slices4)
    (af : Affine3) (minI maxI rx ry : ℝ) (view : String)
    (nc : Option NormCoords) (hdeg : maxI ≤ minI)
    (hx : 1 ≤ v.nx) (hy : 1 ≤ v.ny) (hz : 1 ≤ v.nz) :
    (get_slice_data (some v) dims sl af minI maxI rx ry view nc).isSome
        = true ∧
    ∀ m, get_slice_data (some v) dims sl af minI maxI rx ry view nc =
        some m →
      (∀ i j, m.pix i j = 0) ∧
      ∀ minI' maxI' m',
        get_slice_data (some v) dims sl af minI' maxI' rx ry view nc =
          some m' →
        m.h = m'.h ∧ m.w = m'.w := by
  have hne : v.nx * v.ny * v.nz ≠ 0 := by
    intro h0
    rcases Nat.mul_eq_zero.mp h0 with h | h
    · rcases Nat.mul_eq_zero.mp h with h | h <;> omega
    · omega
  rcases get_slice_data_cases v dims sl af rx ry view nc hne with
    ⟨m0, xs, ys, hcase⟩ | hcase
  · refine ⟨by rw [hcase]; rfl, fun m hm => ?_⟩
    rw [hcase] at hm
    obtain rfl := (Option.some.inj hm).symm
    refine ⟨postProcessImg_zero_of_degenerate m0 xs ys minI maxI hdeg, ?_⟩
    intro minI' maxI' m' hm'
    rw [hcase] at hm'
    obtain rfl := (Option.some.inj hm').symm
    exact postProcessImg_shape m0 xs ys minI maxI minI' maxI'
  · refine ⟨by rw [hcase]; rfl, fun m hm => ?_⟩
    rw [hcase] at hm
    obtain rfl := (Option.some.inj hm).symm
    refine ⟨fun i j => rfl, ?_⟩
    intro minI' maxI' m' hm'
    rw [hcase] at hm'
    obtain rfl := (Option.some.inj hm').symm
    exact ⟨rfl, rfl⟩

theorem C6_degenerate_window_witness :
    (get_slice_data (some ⟨1, 1, 1, fun _ _ _ => 0⟩) ⟨1, 1, 1⟩
      ⟨0, 0, 0, 0⟩ ⟨0, 0, 0⟩ 0 0 0 0 "axial" none).isSome = true :=
  (C6_degenerate_window ⟨1, 1, 1, fun _ _ _ => 0⟩ ⟨1, 1, 1⟩ ⟨0, 0, 0, 0⟩
    ⟨0, 0, 0⟩ 0 0 0 0 "axial" none (le_refl 0)
    (le_refl 1) (le_refl 1) (le_refl 1)).1

/-- C7 counterexample: on the oblique view with a non-null but empty
volume (shape (0,0,0)), `_get_oblique_slice` evaluates `data.min()`,
which raises `ValueError` on an empty array (modelled `none`), instead
of returning the 10x10 placeholder the claim promises for every
zero-sized-slice combination. -/
theorem C7_null_empty_fallback_counterexample :
    get_slice_data (some ⟨0, 0, 0, fun _ _ _ => 0⟩) ⟨0, 0, 0⟩
      ⟨0, 0, 0, 0⟩ ⟨1, 1, 1⟩ 0 1 0 0 "oblique" none = none := by
  simp only [get_slice_data, String.reduceEq, reduceIte, get_oblique_slice,
    volMin, Nat.reduceMul, reduceIte]

/-- C7 amended: `get_slice_data` returns the 10x10 all-zero placeholder
whenever the volume is null (`None`), whenever the view type is not one
of the four known views, and whenever the extracted orthogonal slice is
zero-sized; however the oblique view on an empty volume raises in
numpy's `min` (see the counterexample) rather than returning the
placeholder. -/
theorem C7_null_empty_fallback_amended (dims : Dims3) (sl : Slices4)
    (af : Affine3) (minI maxI rx ry : ℝ) (nc : Option NormCoords) :
    (∀ view, get_slice_data none dims sl af minI maxI rx ry view nc =
      some zeros10) ∧
    (∀ (v : Volume3) (view : String), view ≠ "axial" → view ≠ "coronal" →
      view ≠ "sagittal" → view ≠ "oblique" →
      get_slice_data (some v) dims sl af minI maxI rx ry view nc =
        some zeros10) ∧
    (∀ v : Volume3,
      ((extractAxial v sl.axial).h * (extractAxial v sl.axial).w = 0 →
        get_slice_data (some v) dims sl af minI maxI rx ry "axial" nc =
          some zeros10) ∧
      ((extractCoronal v sl.coronal).h * (extractCoronal v sl.coronal).w
          = 0 →
        get_slice_data (some v) dims sl af minI maxI rx ry "coronal" nc =
          some zeros10) ∧
      ((extractSagittal v sl.sagittal).h * (extractSagittal v sl.sagittal).w
          = 0 →
        get_slice_data (some v) dims sl af minI maxI rx ry "sagittal" nc =
          some zeros10)) := by
  refine ⟨fun view => rfl, ?_, ?_⟩
  · intro v view hax hco hsa hob
    simp only [get_slice_data]
    rw [if_neg hax, if_neg hco, if_neg hsa, if_neg hob]
  · intro v
    refine ⟨fun hsz => ?_, fun hsz => ?_, fun hsz => ?_⟩ <;>
      · simp only [get_slice_data, String.reduceEq, reduceIte]
        unfold postProcessImg
        rw [if_pos hsz]

theorem C7_null_empty_fallback_witness :
    get_slice_data none ⟨1, 1, 1⟩ ⟨0, 0, 0, 0⟩ ⟨1, 1, 1⟩ 0 1 0 0 "axial"
        none = some zeros10 ∧
    get_slice_data (some ⟨1, 1, 1, fun _ _ _ => 0⟩) ⟨1, 1, 1⟩ ⟨0, 0, 0, 0⟩
        ⟨1, 1, 1⟩ 0 1 0 0 "banana" none = some zeros10 ∧
    get_slice_data (some ⟨0, 5, 5, fun _ _ _ => 0⟩) ⟨0, 5, 5⟩ ⟨0, 0, 0, 0⟩
        ⟨1, 1, 1⟩ 0 1 0 0 "axial" none = some zeros10 :=
  ⟨(C7_null_empty_fallback_amended ⟨1, 1, 1⟩ ⟨0, 0, 0, 0⟩ ⟨1, 1, 1⟩
      0 1 0 0 none).1 "axial",
   (C7_null_empty_fallback_amended ⟨1, 1, 1⟩ ⟨0, 0, 0, 0⟩ ⟨1, 1, 1⟩
      0 1 0 0 none).2.1 ⟨1, 1, 1, fun _ _ _ => 0⟩ "banana"
      (by decide) (by decide) (by decide) (by decide),
   ((C7_null_empty_fallback_amended ⟨0, 5, 5⟩ ⟨0, 0, 0, 0⟩ ⟨1, 1, 1⟩
      0 1 0 0 none).2.2 ⟨0, 5, 5, fun _ _ _ => 0⟩).1 rfl⟩

/-- C8 counterexample: a negative in-plane spacing does NOT skip the
aspect-ratio correction.  With `affine[0,0] = 1` and
`affine[1,1] = -2` (so `y_spacing <= 0`), the axial slice of a 2x2x2
volume is resampled with ratio `|{-2}/1| = 2`: the output height is 4,
not the raw height 2 the claim requires (the code only skips when a
spacing is exactly zero). -/
theorem C8_spacing_skip_counterexample :
    (get_slice_data (some ⟨2, 2, 2, fun _ _ _ => 0⟩) ⟨2, 2, 2⟩
        ⟨0, 0, 0, 0⟩ ⟨1, -2, 1⟩ 0 1 0 0 "axial" none).map Img.h =
      some 4 ∧
    (extractAxial ⟨2, 2, 2, fun _ _ _ => 0⟩ 0).h = 2 := by
  have hm : (extractAxial (⟨2, 2, 2, fun _ _ _ => 0⟩ : Volume3) 0).h = 2 :=
    rfl
  have hw : (extractAxial (⟨2, 2, 2, fun _ _ _ => 0⟩ : Volume3) 0).w = 2 :=
    rfl
  refine ⟨?_, hm⟩
  have hpos : (0 : ℤ) <
      pytruncR (((extractAxial (⟨2, 2, 2, fun _ _ _ => 0⟩ : Volume3) 0).h :
        ℝ) * |(-2 : ℝ) / 1|) := by
    rw [hm]
    norm_num [pytruncR]
  have hres : (postProcessImg
      (extractAxial (⟨2, 2, 2, fun _ _ _ => 0⟩ : Volume3) 0)
      1 (-2) 0 1).h = 4 := by
    unfold postProcessImg
    rw [if_neg (by rw [hm, hw]; norm_num), truncStage_h, windowStage_h,
      aspectCorrect_h_resample 1 (-2) _ (by norm_num) (by norm_num) hpos]
    rw [hm]
    norm_num [pytruncR]
    rfl
  simp only [get_slice_data, String.reduceEq, reduceIte, Option.map_some']
  rw [hres]

/-- C8 amended: the aspect-ratio correction is skipped (the raw
extracted slice is passed on unscaled to windowing, silently) exactly
when an in-plane spacing is zero; a negative spacing does not skip it,
because the code tests `x_spacing != 0 and y_spacing != 0` and uses
the absolute ratio `abs(y_spacing / x_spacing)`. -/
theorem C8_zero_spacing_skip_amended (v : Volume3) (dims : Dims3)
    (sl : Slices4) (af : Affine3) (minI maxI rx ry : ℝ)
    (nc : Option NormCoords) :
    ((af.a00 = 0 ∨ af.a11 = 0) →
      (extractAxial v sl.axial).h * (extractAxial v sl.axial).w ≠ 0 →
      get_slice_data (some v) dims sl af minI maxI rx ry "axial" nc =
        some (truncStage (windowStage minI maxI
          (extractAxial v sl.axial)))) ∧
    ((af.a00 = 0 ∨ af.a22 = 0) →
      (extractCoronal v sl.coronal).h * (extractCoronal v sl.coronal).w
          ≠ 0 →
      get_slice_data (some v) dims sl af minI maxI rx ry "coronal" nc =
        some (truncStage (windowStage minI maxI
          (extractCoronal v sl.coronal)))) ∧
    ((af.a11 = 0 ∨ af.a22 = 0) →
      (extractSagittal v sl.sagittal).h * (extractSagittal v sl.sagittal).w
          ≠ 0 →
      get_slice_data (some v) dims sl af minI maxI rx ry "sagittal" nc =
        some (truncStage (windowStage minI maxI
          (extractSagittal v sl.sagittal)))) := by
  refine ⟨fun hsp hsz => ?_, fun hsp hsz => ?_, fun hsp hsz => ?_⟩ <;>
    · simp only [get_slice_data, String.reduceEq, reduceIte]
      rw [postProcessImg_of_skip _ _ _ _ _ hsz hsp]

theorem C8_zero_spacing_skip_witness :
    get_slice_data (some ⟨1, 1, 1, fun _ _ _ => 0⟩) ⟨1, 1, 1⟩
        ⟨0, 0, 0, 0⟩ ⟨0, 1, 1⟩ 0 1 0 0 "axial" none =
      some (truncStage (windowStage 0 1
        (extractAxial ⟨1, 1, 1, fun _ _ _ => 0⟩ 0))) :=
  (C8_zero_spacing_skip_amended ⟨1, 1, 1, fun _ _ _ => 0⟩ ⟨1, 1, 1⟩
    ⟨0, 0, 0, 0⟩ ⟨0, 1, 1⟩ 0 1 0 0 none).1 (Or.inl rfl) (by decide)
